import Mathlib

/-!
# Verification of the Wired-Push-Server session core

A shallow embedding of the connection/session state machine of
`wired/wired.go` (latest revision in the repository): the session record,
the reconnect policy, the keepalive watchdog, the inbound dispatcher
`processData`, and the XML transaction codec, together with theorems about
the specified properties.

Conventions:
* Timestamps and durations are modelled in nanoseconds as `Int`
  (Go's `time.Duration` is an `int64` nanosecond count; `Duration.Seconds()
  >= 60` is equivalent to the nanosecond count being `>= 60 * 10^9` at this
  magnitude).
* Go map iteration order is unspecified, so field mappings are modelled as
  association lists; statements quantify over the list, which covers every
  iteration order.
* Outbound writes are collected into a `sent : List Transaction` effect
  instead of touching a socket; `go`-spawned replies are recorded in program
  order.
-/

namespace Wired

/-- Session status, from the `const` block: `Disconnected = iota`,
`Reconnecting`, `Connected`. -/
inductive Status where
  | Disconnected
  | Reconnecting
  | Connected
deriving DecidableEq, Repr

/-- A decoded field of a P7 message (`p7Field` in `processData`):
`Name` from the `name` attribute, `Value` from the raw inner XML. -/
structure P7Field where
  name : String
  value : String
deriving DecidableEq, Repr

/-- A decoded P7 message (`p7Message` in `processData`): the `name`
attribute of the root element plus the list of `field` children. -/
structure P7Message where
  name : String
  fields : List P7Field
deriving DecidableEq, Repr

/-- The session record (`type Connection struct`). The socket handle is not
modelled; writes appear as effects. `lastPing` is a nanosecond timestamp. -/
structure Connection where
  status : Status
  retryCount : Nat
  lastPing : Int
  Host : String
  Port : Nat
  version : String
  userID : String
deriving DecidableEq, Repr

/-- A fresh session record as built in `main.go`: only `Host` and `Port`
set, everything else zero-valued (`status = Disconnected = 0`). -/
def freshConn (host : String) (port : Nat) : Connection :=
  { status := Status.Disconnected, retryCount := 0, lastPing := 0,
    Host := host, Port := port, version := "", userID := "" }

/-- One outbound transaction handed to `sendTransaction`: the transaction
name and the field mapping (listed in source order; Go iterates the map in
an unspecified order). -/
structure Transaction where
  name : String
  params : List (String × String)
deriving DecidableEq, Repr

/-- The handshake-initiation transaction sent by `Connect` on a successful
dial. -/
def handshakeTx : Transaction :=
  ⟨"p7.handshake.client_handshake",
   [("p7.handshake.version", "1.0"),
    ("p7.handshake.protocol.name", "Wired"),
    ("p7.handshake.protocol.version", "2.0")]⟩

/-- `sendAcknowledgement`: the acknowledgement transaction, no fields. -/
def acknowledgeTx : Transaction := ⟨"p7.handshake.acknowledge", []⟩

/-- `sendPingReply`: the ping-acknowledgement transaction, no fields. -/
def pingTx : Transaction := ⟨"wired.ping", []⟩

/-- `sendCompatibilityCheck`: carries the specification document selected
by the negotiated version (`specs[this.version]`). -/
def compatibilityCheckTx (specDoc : String) : Transaction :=
  ⟨"p7.compatibility_check.specification",
   [("p7.compatibility_check.specification", specDoc)]⟩

/-- `sendClientInformation`: the fixed client-info field mapping. -/
def clientInfoTx : Transaction :=
  ⟨"wired.client_info",
   [("wired.info.application.name", "Wired Client"),
    ("wired.info.application.version", "2.1"),
    ("wired.info.application.build", "306"),
    ("wired.info.os.name", "Mac OS X"),
    ("wired.info.os.version", "10.9.2"),
    ("wired.info.arch", "x86_64"),
    ("wired.info.supports_rsrc", "false")]⟩

/-- `SendLogin`: login transaction with username and password digest. -/
def loginTx (user password : String) : Transaction :=
  ⟨"wired.send_login",
   [("wired.user.login", user), ("wired.user.password", password)]⟩

/-- `SetNick`. -/
def setNickTx (nick : String) : Transaction :=
  ⟨"wired.user.set_nick", [("wired.user.nick", nick)]⟩

/-- `SetStatus`. -/
def setStatusTx (s : String) : Transaction :=
  ⟨"wired.user.set_status", [("wired.user.status", s)]⟩

/-- `SetIcon`. -/
def setIconTx (icon : String) : Transaction :=
  ⟨"wired.user.set_icon", [("wired.user.icon", icon)]⟩

/-- `JoinChannel`. -/
def joinChannelTx (channel : String) : Transaction :=
  ⟨"wired.chat.flatten_chat", [("wired.chat.id", channel)]⟩

/-- `Disconnect`'s notification transaction, carrying the stored user id
and an empty disconnect message. -/
def disconnectTx (userID : String) : Transaction :=
  ⟨"wired.user.disconnect_user",
   [("wired.user.id", userID), ("wired.user.disconnect_message", "")]⟩

/-- The avatar payload passed to `SetIcon` in the `wired.login` handler
(a Go raw-string literal: the line breaks and leading tabs of the source
are part of the string). -/
def iconPayload : String :=
  "iVBORw0KGgoAAAANSUhEUgAAAEAAAABACAQAAAAAYLlVAAABHElEQVR4A" ++
  "\n\t\t\t\te3XsY1EIRCD4WmCUiiElqYgeqISjmCDFdnbT4Lgnh3/AciGmXj1ClWWr2osX1SNuVxvn" ++
  "\n\t\t\t\tn8uX7uDFvPjFlc0v3xBGfPLeb5+c/PhOvaYm/v5+O1up+u3e9yJn0eR48dRhPhBFPX8f" ++
  "\n\t\t\t\tgd+fr8Drx/W0etHdfT6QR01fhhFjx9EEYavZ64H4gdR1PqdruP8zQfqB3WE+B2OYsYAp" ++
  "\n\t\t\t\t5+/YXyrxm9wfbl+zXnf/Zyn+qXz+vsV5+3368r781Odt99vKO+vfzqvw1dx3oav7rz+f" ++
  "\n\t\t\t\ttV5G76G8zp8Nedt+BzO6/CVyvvuU5TX3ac7r8NnVV53n6G87z5Ned59lPfdJ5V/Xp/dR" ++
  "\n\t\t\t\tfmn9dndlf9cH7gtC58RGR2czL/69/oD52cjZjGw8cIAAAAASUVORK5CYII="

/-- The effect of one `processData` dispatch: the updated session record,
the outbound transactions written (in program order), whether a
`log.Panic` path was taken, and the push-notification alerts handed to the
external APNs sink. -/
structure StepResult where
  conn : Connection
  sent : List Transaction
  panicked : Bool
  pushes : List String
deriving DecidableEq, Repr

/-- The single pass over the fields of a `p7.handshake.server_handshake`
message: threads the `this.version` assignment and the `sendCheck` flag
exactly as the source loop does (a `p7.handshake.protocol.version` field
overwrites the version; a `p7.handshake.compatibility_check` field with
value `"1"` raises the flag, any other value leaves it unchanged). -/
def handshakeScan (fields : List P7Field) (version : String) : String × Bool :=
  fields.foldl
    (fun acc f =>
      if f.name = "p7.handshake.protocol.version" then (f.value, acc.2)
      else if f.name = "p7.handshake.compatibility_check" then
        (if f.value = "1" then (acc.1, true) else acc)
      else acc)
    (version, false)

/-- The field loop of the `wired.login` handler: the last
`wired.user.id` field overwrites `this.userID`. -/
def loginScan (fields : List P7Field) (userID : String) : String :=
  fields.foldl (fun acc f => if f.name = "wired.user.id" then f.value else acc) userID

/-- The field loop of the `p7.compatibility_check.status` handler: value
`"1"` spawns a client-info send, any other value panics (aborting the
loop). Returns the client-info sends and the panic flag. -/
def compatStatusLoop : List P7Field → List Transaction × Bool
  | [] => ([], false)
  | f :: rest =>
    if f.name = "p7.compatibility_check.status" then
      if f.value = "1" then
        let r := compatStatusLoop rest
        (clientInfoTx :: r.1, r.2)
      else ([], true)
    else compatStatusLoop rest

/-- The field loop of the `wired.error` handler: a `wired.error.login_failed`
or `wired.banned` value panics; anything else is only logged. -/
def errorLoopPanics (fields : List P7Field) : Bool :=
  fields.any fun f => f.value == "wired.error.login_failed" || f.value == "wired.banned"

/-- The field loop of the `wired.chat.user_join` handler: each
`wired.user.nick` field produces one push-notification alert. -/
def userJoinPushes (fields : List P7Field) : List String :=
  (fields.filter fun f => f.name == "wired.user.nick").map
    fun f => f.value ++ " has logged into Cunning Giraffe."

/-- The dispatch chain of `processData` on an already-decoded message.
`specs` is the Specification Catalog (`specs[version]`, yielding `""` for a
missing key, which the `specs` function argument models); `now` is the
current time in nanoseconds. Mirrors the `if/else if` chain of the source:
handshake, compatibility status, server info, login, ping, error,
chat-join, unknown. -/
def processMessage (specs : String → String) (now : Int) (conn : Connection)
    (message : P7Message) : StepResult :=
  if message.name = "p7.handshake.server_handshake" then
    let scan := handshakeScan message.fields conn.version
    { conn := { conn with version := scan.1 },
      sent := acknowledgeTx ::
        (if scan.2 then [compatibilityCheckTx (specs scan.1)] else [clientInfoTx]),
      panicked := false, pushes := [] }
  else if message.name = "p7.compatibility_check.status" then
    let r := compatStatusLoop message.fields
    { conn := conn, sent := r.1, panicked := r.2, pushes := [] }
  else if message.name = "wired.server_info" then
    if conn.status ≠ Status.Connected then
      { conn := conn,
        sent := [loginTx "guest" "da39a3ee5e6b4b0d3255bfef95601890afd80709"],
        panicked := false, pushes := [] }
    else
      { conn := conn, sent := [], panicked := false, pushes := [] }
  else if message.name = "wired.login" then
    { conn := { conn with userID := loginScan message.fields conn.userID,
                          status := Status.Connected },
      sent := [setNickTx "Triforce", setStatusTx "The APNs of Wired",
               setIconTx iconPayload, joinChannelTx "1"],
      panicked := false, pushes := [] }
  else if message.name = "wired.send_ping" then
    { conn := { conn with lastPing := now },
      sent := [pingTx], panicked := false, pushes := [] }
  else if message.name = "wired.error" then
    { conn := conn, sent := [], panicked := errorLoopPanics message.fields,
      pushes := [] }
  else if message.name = "wired.chat.user_join" then
    { conn := conn, sent := [], panicked := false,
      pushes := userJoinPushes message.fields }
  else
    { conn := conn, sent := [], panicked := false, pushes := [] }

/-- One tick of the watchdog goroutine started by `Connect`: if
`status == Connected` and at least 60 seconds (in nanoseconds) have passed
since `lastPing`, send one proactive ping reply; otherwise send nothing. -/
def watchdogTick (conn : Connection) (now : Int) : List Transaction :=
  if conn.status = Status.Connected then
    if now - conn.lastPing ≥ 60 * 1000000000 then [pingTx] else []
  else []

/-- The effect of `Disconnect()`: the updated record, the transactions
sent, whether the socket was closed, and whether `Reconnect` was invoked
(the function body never calls it). -/
structure DisconnectResult where
  conn : Connection
  sent : List Transaction
  closedSocket : Bool
  invokedReconnect : Bool
deriving DecidableEq, Repr

/-- `Disconnect()`: unconditionally sends the disconnect notification
carrying `this.userID`, then sets `status = Disconnected` and closes the
socket. It never touches `userID` or `retryCount` and never calls
`Reconnect`. -/
def disconnect (conn : Connection) : DisconnectResult :=
  { conn := { conn with status := Status.Disconnected },
    sent := [disconnectTx conn.userID],
    closedSocket := true,
    invokedReconnect := false }

/-- The state update performed by `Reconnect()` before it sleeps or gives
up: set `status = Reconnecting`, increment `retryCount`, and if the new
count exceeds 20 set `status = Disconnected` (the source then panics,
terminating the process). -/
def reconnectStateUpdate (conn : Connection) : Connection :=
  let c := { conn with status := Status.Reconnecting,
                       retryCount := conn.retryCount + 1 }
  if c.retryCount > 20 then { c with status := Status.Disconnected } else c

/-- Outcome of one dial attempt, supplied by an oracle standing in for
`net.DialTimeout`. -/
inductive DialResult where
  | ok
  | fail
deriving DecidableEq, Repr

/-- Outcome of the mutual `Connect`/`Reconnect` recursion.
`established conn` means a transport-level dial succeeded: `retryCount`
has already been reset to 0 and the handshake transaction is sent next
(the reset happens before any handshake traffic). `gaveUp conn` means the
retry ceiling was exceeded: the source sets `status = Disconnected` and
panics, so no further dial is attempted. `pending conn` means the oracle
ran out of answers mid-run. -/
inductive ConnectOutcome where
  | established (conn : Connection)
  | gaveUp (conn : Connection)
  | pending (conn : Connection)
deriving DecidableEq, Repr

/-- The `Connect`/`Reconnect` recursion driven by a dial oracle. On a
failed dial, `Reconnect` sets `status = Reconnecting`, increments
`retryCount`, gives up past 20 retries, and otherwise (after its 15-second
sleep) calls `Connect` again; on a successful dial, `Connect` resets
`retryCount` to 0 before sending the handshake. -/
def connectLoop (conn : Connection) : List DialResult → ConnectOutcome
  | [] => ConnectOutcome.pending conn
  | DialResult.ok :: _ =>
    ConnectOutcome.established { conn with retryCount := 0 }
  | DialResult.fail :: rest =>
    let c := { conn with status := Status.Reconnecting,
                         retryCount := conn.retryCount + 1 }
    if c.retryCount > 20 then
      ConnectOutcome.gaveUp { c with status := Status.Disconnected }
    else
      connectLoop c rest

/-! ## The transaction codec

`sendTransaction` builds the outbound XML document by string concatenation;
`processData` decodes inbound frames with Go's `encoding/xml` unmarshaller.
The encoder below is a direct transcription of `sendTransaction`. The
decoder models the unmarshaller's behaviour on these single-root documents:
it accepts exactly the envelope the encoder produces, reading the `name`
attribute of the root, and for each `field` child its `name` attribute and
raw inner text (the `,innerxml` capture). Like the strict Go decoder it
rejects a `<` or `&` inside an attribute value and a stray `<` or `&` in
character data (the model is conservative: it rejects every `&`, where Go
would accept a complete entity reference). -/

/-- The XML built for one field by `sendTransaction`'s loop. -/
def fieldXML (kv : String × String) : String :=
  "<p7:field name=\"" ++ kv.1 ++ "\">" ++ kv.2 ++ "</p7:field>"

/-- The field loop of `sendTransaction`: one `p7:field` element appended
per mapping entry, in iteration order. -/
def fieldsXML : List (String × String) → String
  | [] => ""
  | kv :: rest => fieldXML kv ++ fieldsXML rest

/-- `sendTransaction`: XML declaration, root element with the transaction
name, one `p7:field` element per mapping entry with the value inserted
verbatim, closing tag, and the `\r\n` frame terminator. An absent
parameters map and an empty one both contribute no field elements. -/
def encodeTransaction (transaction : String) (parameters : List (String × String)) : String :=
  "<?xml version=\"1.0\" encoding=\"UTF-8\"?>" ++
  ("<p7:message name=\"" ++ transaction ++
    "\" xmlns:p7=\"http://www.zankasoftware.com/P7/Message\">") ++
  fieldsXML parameters ++
  "</p7:message>" ++ "\r\n"

/-- Consume an expected literal from the front of the input. -/
def chomp : List Char → List Char → Option (List Char)
  | [], s => some s
  | _ :: _, [] => none
  | l :: ls, c :: cs => if l = c then chomp ls cs else none

/-- Read an attribute value up to the closing quote. A `<` is illegal in an
XML attribute value and a bare `&` is rejected by the strict decoder. -/
def parseQuoted : List Char → Option (List Char × List Char)
  | [] => none
  | c :: rest =>
    if c = '"' then some ([], rest)
    else if c = '<' ∨ c = '&' then none
    else
      match parseQuoted rest with
      | some (v, r) => some (c :: v, r)
      | none => none

/-- Read character data up to the next `<` (left in the remainder); a bare
`&` is rejected by the strict decoder. -/
def parseCharData : List Char → Option (List Char × List Char)
  | [] => none
  | c :: rest =>
    if c = '<' then some ([], c :: rest)
    else if c = '&' then none
    else
      match parseCharData rest with
      | some (v, r) => some (c :: v, r)
      | none => none

/-- Literal opening a `p7:field` element, up to its `name` attribute. -/
def fieldOpenL : List Char := "<p7:field name=\"".toList

/-- Literal closing a `p7:field` element. -/
def fieldCloseL : List Char := "</p7:field>".toList

/-- Literal closing the root element. -/
def msgCloseL : List Char := "</p7:message>".toList

/-- The document header up to the root's `name` attribute value. -/
def msgOpenL : List Char :=
  "<?xml version=\"1.0\" encoding=\"UTF-8\"?><p7:message name=\"".toList

/-- The rest of the root's open tag, after the closing quote of the `name`
attribute value. -/
def msgXmlnsL : List Char :=
  " xmlns:p7=\"http://www.zankasoftware.com/P7/Message\">".toList

/-- Parse the sequence of `p7:field` children, stopping at the root's
closing tag (which is consumed). `fuel` bounds the recursion; each field
consumes at least one character, so the input length is enough fuel. -/
def parseFields : Nat → List Char → Option (List P7Field × List Char)
  | 0, _ => none
  | fuel + 1, s =>
    match chomp msgCloseL s with
    | some r => some ([], r)
    | none =>
      match chomp fieldOpenL s with
      | none => none
      | some s1 =>
        match parseQuoted s1 with
        | none => none
        | some (k, s2) =>
          match chomp ['>'] s2 with
          | none => none
          | some s3 =>
            match parseCharData s3 with
            | none => none
            | some (v, s4) =>
              match chomp fieldCloseL s4 with
              | none => none
              | some s5 =>
                match parseFields fuel s5 with
                | none => none
                | some (fs, r) => some (⟨String.mk k, String.mk v⟩ :: fs, r)

/-- Decode one framed document into a message, or fail. Models
`xml.Unmarshal` into `p7Message` on the envelope this program exchanges:
header, root `name` attribute, `field` children (attribute `name`, inner
text as value), closing tag, and the trailing frame delimiter. -/
def decodeTransaction (s : String) : Option P7Message :=
  match chomp msgOpenL s.toList with
  | none => none
  | some s1 =>
    match parseQuoted s1 with
    | none => none
    | some (n, s2) =>
      match chomp msgXmlnsL s2 with
      | none => none
      | some s3 =>
        match parseFields (s3.length + 1) s3 with
        | none => none
        | some (fs, r) =>
          if r = ['\r', '\n'] then some ⟨String.mk n, fs⟩ else none

/-- A character that survives the verbatim insertion of `sendTransaction`:
not `<`, `&` or `"` (which corrupt the XML) and not the `\r` frame
delimiter. -/
def safeChar (c : Char) : Bool :=
  c != '<' && c != '&' && c != '"' && c != '\r'

/-- A string of safe characters. -/
def safeStr (s : String) : Bool := s.toList.all safeChar

/-- The character run one encoded field contributes to the document. -/
def fieldBlockL (kv : String × String) : List Char :=
  fieldOpenL ++ kv.1.toList ++ '"' :: '>' :: (kv.2.toList ++ fieldCloseL)

/-- `processData` on a raw frame: decode, drop the frame on a decode
error (log-and-return branch), otherwise dispatch. -/
def processData (specs : String → String) (now : Int) (conn : Connection)
    (data : String) : StepResult :=
  match decodeTransaction data with
  | none => { conn := conn, sent := [], panicked := false, pushes := [] }
  | some message => processMessage specs now conn message

/-- An externally observable event of the session state machine: a dial
outcome, an inbound message dispatch (with its arrival time), or a
user-requested disconnect. -/
inductive Event where
  | dialOk
  | dialFail
  | msg (m : P7Message) (now : Int)
  | userDisconnect
deriving DecidableEq, Repr

/-- The state transition of one event, assembled from the source
functions: dial success resets `retryCount` (`Connect`), dial failure runs
the `Reconnect` update, a message runs `processData`, and a user
disconnect runs `Disconnect`. -/
def stepEvent (specs : String → String) (conn : Connection) : Event → Connection
  | Event.dialOk => { conn with retryCount := 0 }
  | Event.dialFail => reconnectStateUpdate conn
  | Event.msg m now => (processMessage specs now conn m).conn
  | Event.userDisconnect => (disconnect conn).conn

/-- Run a trace of events from a state. -/
def runTrace (specs : String → String) (conn : Connection) : List Event → Connection
  | [] => conn
  | e :: es => runTrace specs (stepEvent specs conn e) es

/-- The "last matching field wins" pattern shared by the
`p7.handshake.protocol.version` and `wired.user.id` field loops. -/
def lastValue (key : String) (fields : List P7Field) (v : String) : String :=
  fields.foldl (fun acc f => if f.name = key then f.value else acc) v

/-- The compatibility flag raised by one field of the handshake offer:
name `p7.handshake.compatibility_check` with value exactly `"1"`. -/
def ccFlag (f : P7Field) : Bool :=
  f.name == "p7.handshake.compatibility_check" && f.value == "1"

/-- A message that carries at least one field named `key`, all of whose
`key` fields have non-empty values. -/
def carriesNonEmpty (key : String) (m : P7Message) : Bool :=
  m.fields.any (fun f => f.name == key) &&
  m.fields.all (fun f => f.name != key || f.value != "")

/-- Whether a handshake offer has been dispatched after one more event. -/
def seenAfter (seen : Bool) : Event → Bool
  | Event.msg m _ => seen || m.name == "p7.handshake.server_handshake"
  | _ => seen

/-- Well-formedness of one event given whether a handshake offer was
already dispatched: a login result must follow some handshake offer and
carry a non-empty `wired.user.id`; a handshake offer must carry a
non-empty `p7.handshake.protocol.version`. -/
def eventOK (seen : Bool) : Event → Bool
  | Event.msg m _ =>
    (m.name != "wired.login" || (seen && carriesNonEmpty "wired.user.id" m)) &&
    (m.name != "p7.handshake.server_handshake" ||
      carriesNonEmpty "p7.handshake.protocol.version" m)
  | _ => true

/-- Well-formedness of a whole event trace. -/
def goodTrace : Bool → List Event → Bool
  | _, [] => true
  | seen, e :: es => eventOK seen e && goodTrace (seenAfter seen e) es

/-- The inductive session invariant: once a handshake offer has been seen
the version stays non-empty, and a `Connected` session has a non-empty
`userID` and version. -/
def sessionInv (seen : Bool) (conn : Connection) : Prop :=
  (seen = true → conn.version ≠ "") ∧
  (conn.status = Status.Connected → conn.userID ≠ "" ∧ conn.version ≠ "")

/-! ## Helper lemmas -/

theorem lastValue_cons (key : String) (f : P7Field) (rest : List P7Field) (v : String) :
    lastValue key (f :: rest) v =
      lastValue key rest (if f.name = key then f.value else v) := rfl

theorem loginScan_eq (fields : List P7Field) (userID : String) :
    loginScan fields userID = lastValue "wired.user.id" fields userID := rfl

theorem lastValue_no_match (key : String) :
    ∀ (fields : List P7Field) (v : String), (∀ f ∈ fields, f.name ≠ key) →
      lastValue key fields v = v := by
  intro fields
  induction fields with
  | nil => intro v _; rfl
  | cons f rest ih =>
    intro v h
    rw [lastValue_cons, if_neg (h f (List.mem_cons_self f rest))]
    exact ih v fun g hg => h g (List.mem_cons_of_mem f hg)

theorem lastValue_const (key : String) (w : String) :
    ∀ (fields : List P7Field), (∀ f ∈ fields, f.name = key → f.value = w) →
      lastValue key fields w = w := by
  intro fields
  induction fields with
  | nil => intro _; rfl
  | cons f rest ih =>
    intro h
    rw [lastValue_cons]
    by_cases hf : f.name = key
    · rw [if_pos hf, h f (List.mem_cons_self f rest) hf]
      exact ih fun g hg => h g (List.mem_cons_of_mem f hg)
    · rw [if_neg hf]
      exact ih fun g hg => h g (List.mem_cons_of_mem f hg)

theorem lastValue_of_match (key : String) (f0 : P7Field) (h2 : f0.name = key) :
    ∀ (fields : List P7Field), f0 ∈ fields →
      (∀ f ∈ fields, f.name = key → f.value = f0.value) →
      ∀ v, lastValue key fields v = f0.value := by
  intro fields
  induction fields with
  | nil => intro h1; cases h1
  | cons g rest ih =>
    intro h1 h3 v
    rw [lastValue_cons]
    by_cases hg : g.name = key
    · rw [if_pos hg, h3 g (List.mem_cons_self g rest) hg]
      exact lastValue_const key f0.value rest
        fun f hf hk => h3 f (List.mem_cons_of_mem g hf) hk
    · rw [if_neg hg]
      have hf0 : f0 ∈ rest := by
        rcases List.mem_cons.mp h1 with h | h
        · exact absurd (h ▸ h2) hg
        · exact h
      exact ih hf0 (fun f hf hk => h3 f (List.mem_cons_of_mem g hf) hk) v

theorem lastValue_ne_empty_acc (key : String) :
    ∀ (fields : List P7Field) (v : String),
      (∀ f ∈ fields, f.name = key → f.value ≠ "") → v ≠ "" →
      lastValue key fields v ≠ "" := by
  intro fields
  induction fields with
  | nil => intro v _ hv; exact hv
  | cons f rest ih =>
    intro v h hv
    rw [lastValue_cons]
    by_cases hf : f.name = key
    · rw [if_pos hf]
      exact ih f.value (fun g hg => h g (List.mem_cons_of_mem f hg))
        (h f (List.mem_cons_self f rest) hf)
    · rw [if_neg hf]
      exact ih v (fun g hg => h g (List.mem_cons_of_mem f hg)) hv

theorem lastValue_ne_empty (key : String) :
    ∀ (fields : List P7Field) (v : String),
      (∃ f ∈ fields, f.name = key) →
      (∀ f ∈ fields, f.name = key → f.value ≠ "") →
      lastValue key fields v ≠ "" := by
  intro fields
  induction fields with
  | nil => intro v hex _; obtain ⟨f, hf, _⟩ := hex; cases hf
  | cons f rest ih =>
    intro v hex h
    rw [lastValue_cons]
    by_cases hf : f.name = key
    · rw [if_pos hf]
      exact lastValue_ne_empty_acc key rest f.value
        (fun g hg => h g (List.mem_cons_of_mem f hg))
        (h f (List.mem_cons_self f rest) hf)
    · rw [if_neg hf]
      obtain ⟨g, hg, hk⟩ := hex
      rcases List.mem_cons.mp hg with h1 | h1
      · exact absurd (h1 ▸ hk) hf
      · exact ih v ⟨g, h1, hk⟩ fun g hg => h g (List.mem_cons_of_mem f hg)

/-- The single handshake field pass computes, independently in each
component, the last protocol-version value and whether any field raises
the compatibility flag. -/
theorem handshakeFold_eq (fields : List P7Field) :
    ∀ (v : String) (b : Bool),
      fields.foldl
        (fun acc f =>
          if f.name = "p7.handshake.protocol.version" then (f.value, acc.2)
          else if f.name = "p7.handshake.compatibility_check" then
            (if f.value = "1" then (acc.1, true) else acc)
          else acc)
        (v, b)
      = (lastValue "p7.handshake.protocol.version" fields v,
         b || fields.any ccFlag) := by
  induction fields with
  | nil => intro v b; simp [lastValue]
  | cons f rest ih =>
    intro v b
    rw [List.foldl_cons]
    by_cases h1 : f.name = "p7.handshake.protocol.version"
    · simp only [h1, if_pos, reduceIte]
      rw [ih]
      have hcc : ccFlag f = false := by simp [ccFlag, h1]
      simp [lastValue_cons, h1, hcc]
    · by_cases h2 : f.name = "p7.handshake.compatibility_check"
      · by_cases h3 : f.value = "1"
        · simp only [h1, h2, h3, reduceIte]
          rw [ih]
          have hcc : ccFlag f = true := by simp [ccFlag, h2, h3]
          simp [lastValue_cons, h1, hcc]
        · simp only [h1, h2, h3, reduceIte]
          rw [ih]
          have hcc : ccFlag f = false := by simp [ccFlag, h2, h3]
          simp [lastValue_cons, h1, hcc]
      · simp only [h1, h2, reduceIte]
        rw [ih]
        have hcc : ccFlag f = false := by simp [ccFlag, h2]
        simp [lastValue_cons, h1, hcc]

/-- `handshakeScan` split into its two independent components. -/
theorem handshakeScan_eq (fields : List P7Field) (v : String) :
    handshakeScan fields v =
      (lastValue "p7.handshake.protocol.version" fields v, fields.any ccFlag) := by
  rw [handshakeScan, handshakeFold_eq]
  simp

theorem any_perm {l l' : List P7Field} (p : P7Field → Bool) (h : l.Perm l') :
    l.any p = l'.any p := by
  rw [Bool.eq_iff_iff, List.any_eq_true, List.any_eq_true]
  constructor
  · rintro ⟨x, hx, hp⟩; exact ⟨x, h.mem_iff.mp hx, hp⟩
  · rintro ⟨x, hx, hp⟩; exact ⟨x, h.mem_iff.mpr hx, hp⟩

theorem lastValue_perm (key : String) {l l' : List P7Field}
    (hwf : l.Pairwise fun f g => f.name ≠ g.name) (hp : l.Perm l') (v : String) :
    lastValue key l' v = lastValue key l v := by
  by_cases hex : ∃ f ∈ l, f.name = key
  · obtain ⟨f0, hf0, hk⟩ := hex
    have hsym : Symmetric fun f g : P7Field => f.name ≠ g.name := by
      intro a b hab hba
      exact hab hba.symm
    have huniq : ∀ f ∈ l, f.name = key → f.value = f0.value := by
      intro f hf hfk
      by_cases hne : f = f0
      · rw [hne]
      · exact absurd (hfk.trans hk.symm) (hwf.forall hsym hf hf0 hne)
    rw [lastValue_of_match key f0 hk l' (hp.subset hf0)
      (fun f hf => huniq f (hp.mem_iff.mpr hf)) v]
    rw [lastValue_of_match key f0 hk l hf0 huniq v]
  · push_neg at hex
    rw [lastValue_no_match key l' v fun f hf => hex f (hp.mem_iff.mpr hf)]
    rw [lastValue_no_match key l v hex]

/-- Consuming `replicate k fail` performs `k` reconnect steps, each adding
exactly 1 to `retryCount` and setting `status = Reconnecting`, as long as
the ceiling is not exceeded. -/
theorem connectLoop_replicate_fail (k : Nat) :
    ∀ (conn : Connection) (rest : List DialResult), 1 ≤ k →
      conn.retryCount + k ≤ 20 →
      connectLoop conn (List.replicate k DialResult.fail ++ rest) =
        connectLoop { conn with status := Status.Reconnecting,
                                retryCount := conn.retryCount + k } rest := by
  induction k with
  | zero => omega
  | succ j ih =>
    intro conn rest _ hle
    rw [List.replicate_succ, List.cons_append]
    show connectLoop conn (DialResult.fail :: (List.replicate j DialResult.fail ++ rest)) = _
    rw [connectLoop]
    simp only []
    rw [if_neg (by omega)]
    cases j with
    | zero => simp
    | succ i =>
      rw [ih _ rest (by omega)
        (by show conn.retryCount + 1 + (i + 1) ≤ 20; omega)]
      congr 2
      show conn.retryCount + 1 + (i + 1) = conn.retryCount + (i + 1 + 1)
      omega

theorem carriesNonEmpty_spec {key : String} {m : P7Message}
    (h : carriesNonEmpty key m = true) :
    (∃ f ∈ m.fields, f.name = key) ∧
    (∀ f ∈ m.fields, f.name = key → f.value ≠ "") := by
  rw [carriesNonEmpty, Bool.and_eq_true, List.any_eq_true, List.all_eq_true] at h
  constructor
  · obtain ⟨f, hf, hp⟩ := h.1
    exact ⟨f, hf, beq_iff_eq.mp hp⟩
  · intro f hf hk
    have hor := h.2 f hf
    rw [Bool.or_eq_true, bne_iff_ne, bne_iff_ne] at hor
    rcases hor with hne | hne
    · exact absurd hk hne
    · exact hne

theorem reconnectStateUpdate_version (conn : Connection) :
    (reconnectStateUpdate conn).version = conn.version := by
  rw [reconnectStateUpdate]
  by_cases h : conn.retryCount + 1 > 20 <;> simp [h]

theorem reconnectStateUpdate_userID (conn : Connection) :
    (reconnectStateUpdate conn).userID = conn.userID := by
  rw [reconnectStateUpdate]
  by_cases h : conn.retryCount + 1 > 20 <;> simp [h]

theorem reconnectStateUpdate_status_ne (conn : Connection) :
    (reconnectStateUpdate conn).status ≠ Status.Connected := by
  rw [reconnectStateUpdate]
  by_cases h : conn.retryCount + 1 > 20 <;> simp [h]

/-- `processData` dispatches other than the handshake offer and the login
result never touch `status`, `userID` or `version`. -/
theorem processMessage_frame (specs : String → String) (now : Int)
    (conn : Connection) (m : P7Message)
    (h1 : m.name ≠ "p7.handshake.server_handshake")
    (h2 : m.name ≠ "wired.login") :
    (processMessage specs now conn m).conn.status = conn.status ∧
    (processMessage specs now conn m).conn.userID = conn.userID ∧
    (processMessage specs now conn m).conn.version = conn.version := by
  rw [processMessage]
  rw [if_neg h1]
  by_cases h3 : m.name = "p7.compatibility_check.status"
  · simp [h3]
  rw [if_neg h3]
  by_cases h4 : m.name = "wired.server_info"
  · rw [if_pos h4]
    by_cases h5 : conn.status ≠ Status.Connected <;> simp [h5]
  rw [if_neg h4, if_neg h2]
  by_cases h6 : m.name = "wired.send_ping"
  · simp [h6]
  rw [if_neg h6]
  by_cases h7 : m.name = "wired.error"
  · simp [h7]
  rw [if_neg h7]
  by_cases h8 : m.name = "wired.chat.user_join"
  · simp [h8]
  · simp [h8]

/-- One well-formed event preserves the session invariant. -/
theorem stepEvent_inv (specs : String → String) (conn : Connection)
    (seen : Bool) (e : Event) (hok : eventOK seen e = true)
    (hinv : sessionInv seen conn) :
    sessionInv (seenAfter seen e) (stepEvent specs conn e) := by
  cases e with
  | dialOk =>
    exact ⟨fun hs => hinv.1 hs, fun hc => hinv.2 hc⟩
  | dialFail =>
    refine ⟨fun hs => ?_, fun hc => ?_⟩
    · show (reconnectStateUpdate conn).version ≠ ""
      rw [reconnectStateUpdate_version]
      exact hinv.1 hs
    · exact absurd hc (reconnectStateUpdate_status_ne conn)
  | userDisconnect =>
    refine ⟨fun hs => ?_, fun hc => ?_⟩
    · exact hinv.1 hs
    · exact absurd hc (by rw [stepEvent, disconnect]; simp)
  | msg m now =>
    rw [eventOK, Bool.and_eq_true] at hok
    show sessionInv (seen || m.name == "p7.handshake.server_handshake")
      (processMessage specs now conn m).conn
    by_cases hm1 : m.name = "p7.handshake.server_handshake"
    · have hcv : carriesNonEmpty "p7.handshake.protocol.version" m = true := by
        have := hok.2
        rw [Bool.or_eq_true] at this
        rcases this with hx | hx
        · exact absurd hm1 (bne_iff_ne.mp hx)
        · exact hx
      obtain ⟨hex, hne⟩ := carriesNonEmpty_spec hcv
      have hver : (processMessage specs now conn m).conn.version ≠ "" := by
        rw [processMessage, if_pos hm1]
        show (handshakeScan m.fields conn.version).1 ≠ ""
        rw [handshakeScan_eq]
        exact lastValue_ne_empty _ m.fields conn.version hex hne
      have hstat : (processMessage specs now conn m).conn.status = conn.status := by
        rw [processMessage, if_pos hm1]
      have huid : (processMessage specs now conn m).conn.userID = conn.userID := by
        rw [processMessage, if_pos hm1]
      refine ⟨fun _ => hver, fun hc => ?_⟩
      rw [hstat] at hc
      exact ⟨huid ▸ (hinv.2 hc).1, hver⟩
    · by_cases hm2 : m.name = "wired.login"
      · have hlog : (seen && carriesNonEmpty "wired.user.id" m) = true := by
          have := hok.1
          rw [Bool.or_eq_true] at this
          rcases this with hx | hx
          · exact absurd hm2 (bne_iff_ne.mp hx)
          · exact hx
        rw [Bool.and_eq_true] at hlog
        obtain ⟨hex, hne⟩ := carriesNonEmpty_spec hlog.2
        have hverOld : conn.version ≠ "" := hinv.1 hlog.1
        have hres : (processMessage specs now conn m).conn =
            { conn with userID := loginScan m.fields conn.userID,
                        status := Status.Connected } := by
          rw [processMessage, if_neg hm1, if_neg (by rw [hm2]; decide),
            if_neg (by rw [hm2]; decide), if_pos hm2]
        have huid : (processMessage specs now conn m).conn.userID ≠ "" := by
          rw [hres]
          show loginScan m.fields conn.userID ≠ ""
          rw [loginScan_eq]
          exact lastValue_ne_empty _ m.fields conn.userID hex hne
        refine ⟨fun _ => ?_, fun _ => ⟨huid, ?_⟩⟩
        · rw [hres]
          exact hverOld
        · rw [hres]
          exact hverOld
      · obtain ⟨hst, hui, hve⟩ := processMessage_frame specs now conn m hm1 hm2
        refine ⟨fun hs => ?_, fun hc => ?_⟩
        · rw [hve]
          rw [Bool.or_eq_true] at hs
          rcases hs with hs | hs
          · exact hinv.1 hs
          · exact absurd (beq_iff_eq.mp hs) hm1
        · rw [hst] at hc
          rw [hui, hve]
          exact hinv.2 hc

/-- A well-formed trace carries the invariant from any invariant state. -/
theorem runTrace_inv (specs : String → String) :
    ∀ (tr : List Event) (conn : Connection) (seen : Bool),
      goodTrace seen tr = true → sessionInv seen conn →
      ∃ seen2, sessionInv seen2 (runTrace specs conn tr) := by
  intro tr
  induction tr with
  | nil => intro conn seen _ hinv; exact ⟨seen, hinv⟩
  | cons e es ih =>
    intro conn seen hg hinv
    rw [goodTrace, Bool.and_eq_true] at hg
    exact ih (stepEvent specs conn e) (seenAfter seen e) hg.2
      (stepEvent_inv specs conn seen e hg.1 hinv)

/-! ### Codec lemmas -/

theorem safeChar_spec {c : Char} (h : safeChar c = true) :
    c ≠ '<' ∧ c ≠ '&' ∧ c ≠ '"' ∧ c ≠ '\r' := by
  rw [safeChar] at h
  simp only [Bool.and_eq_true, bne_iff_ne] at h
  exact ⟨h.1.1.1, h.1.1.2, h.1.2, h.2⟩

theorem chomp_append : ∀ (l t : List Char), chomp l (l ++ t) = some t := by
  intro l
  induction l with
  | nil => intro t; rfl
  | cons c cs ih => intro t; simp [chomp, ih]

theorem chomp_cons_self (c : Char) (t : List Char) : chomp [c] (c :: t) = some t := by
  simp [chomp]

theorem parseQuoted_closed :
    ∀ (v rest : List Char), (∀ c ∈ v, safeChar c = true) →
      parseQuoted (v ++ '"' :: rest) = some (v, rest) := by
  intro v
  induction v with
  | nil => intro rest _; simp [parseQuoted]
  | cons c cs ih =>
    intro rest h
    obtain ⟨h1, h2, h3, _⟩ := safeChar_spec (h c (List.mem_cons_self c cs))
    rw [List.cons_append, parseQuoted, if_neg h3,
      if_neg (by push_neg; exact ⟨h1, h2⟩),
      ih rest fun d hd => h d (List.mem_cons_of_mem c hd)]

theorem parseCharData_closed :
    ∀ (v rest : List Char), (∀ c ∈ v, safeChar c = true) →
      parseCharData (v ++ '<' :: rest) = some (v, '<' :: rest) := by
  intro v
  induction v with
  | nil => intro rest _; simp [parseCharData]
  | cons c cs ih =>
    intro rest h
    obtain ⟨h1, h2, _, _⟩ := safeChar_spec (h c (List.mem_cons_self c cs))
    rw [List.cons_append, parseCharData, if_neg h1, if_neg h2,
      ih rest fun d hd => h d (List.mem_cons_of_mem c hd)]

theorem fieldOpenL_eq : fieldOpenL = '<' :: 'p' :: "7:field name=\"".toList := by
  decide

theorem msgCloseL_eq : msgCloseL = '<' :: '/' :: "p7:message>".toList := by
  decide

theorem fieldCloseL_eq : fieldCloseL = '<' :: "/p7:field>".toList := by
  decide

theorem chomp_msgClose_fieldOpen (s : List Char) :
    chomp msgCloseL (fieldOpenL ++ s) = none := by
  rw [msgCloseL_eq, fieldOpenL_eq, List.cons_append, List.cons_append, chomp,
    if_pos rfl, chomp, if_neg (by decide)]

theorem fieldXML_toList (kv : String × String) :
    (fieldXML kv).toList = fieldBlockL kv := by
  show (fieldXML kv).data = fieldBlockL kv
  rw [fieldXML, fieldBlockL]
  simp [String.data_append, String.toList, fieldOpenL, fieldCloseL,
    List.append_assoc]

theorem fieldsXML_toList : ∀ ps : List (String × String),
    (fieldsXML ps).toList = (ps.map fieldBlockL).flatten := by
  intro ps
  induction ps with
  | nil => rfl
  | cons kv rest ih =>
    show (fieldXML kv ++ fieldsXML rest).data = _
    rw [String.data_append]
    rw [show (fieldXML kv).data = fieldBlockL kv from fieldXML_toList kv]
    rw [show (fieldsXML rest).data = (rest.map fieldBlockL).flatten from ih]
    rfl

theorem fieldBlocks_length_ge : ∀ ps : List (String × String),
    ps.length ≤ ((ps.map fieldBlockL).flatten).length := by
  intro ps
  induction ps with
  | nil => simp
  | cons kv rest ih =>
    have hjoin : ((kv :: rest).map fieldBlockL).flatten =
        fieldBlockL kv ++ (rest.map fieldBlockL).flatten := rfl
    have hb : 1 ≤ (fieldBlockL kv).length := by
      rw [fieldBlockL]
      have h16 : fieldOpenL.length = 16 := by decide
      simp [List.length_append, h16]
      omega
    rw [hjoin, List.length_append, List.length_cons]
    omega

theorem parseFields_closed :
    ∀ (ps : List (String × String)) (fuel : Nat) (tail : List Char),
      ps.length < fuel →
      (∀ kv ∈ ps, safeStr kv.1 = true ∧ safeStr kv.2 = true) →
      parseFields fuel ((ps.map fieldBlockL).flatten ++ (msgCloseL ++ tail)) =
        some (ps.map (fun kv => ⟨kv.1, kv.2⟩), tail) := by
  intro ps
  induction ps with
  | nil =>
    intro fuel tail hf _
    obtain ⟨f, rfl⟩ : ∃ f, fuel = f + 1 := ⟨fuel - 1, by omega⟩
    show parseFields (f + 1) (msgCloseL ++ tail) = some ([], tail)
    rw [parseFields, chomp_append]
  | cons kv rest ih =>
    intro fuel tail hf hsafe
    obtain ⟨f, rfl⟩ : ∃ f, fuel = f + 1 := ⟨fuel - 1, by omega⟩
    obtain ⟨hk, hv⟩ := hsafe kv (List.mem_cons_self kv rest)
    rw [safeStr, List.all_eq_true] at hk hv
    have hinput : ((kv :: rest).map fieldBlockL).flatten ++ (msgCloseL ++ tail) =
        fieldOpenL ++ (kv.1.toList ++ ('"' :: ('>' :: (kv.2.toList ++
          ('<' :: ("/p7:field>".toList ++
            ((rest.map fieldBlockL).flatten ++ (msgCloseL ++ tail)))))))) := by
      show (fieldBlockL kv ++ (rest.map fieldBlockL).flatten) ++ (msgCloseL ++ tail) = _
      rw [fieldBlockL, fieldCloseL_eq]
      simp [List.append_assoc]
    rw [hinput, parseFields]
    have e1 : chomp msgCloseL (fieldOpenL ++ (kv.1.toList ++ ('"' :: ('>' ::
        (kv.2.toList ++ ('<' :: ("/p7:field>".toList ++
          ((rest.map fieldBlockL).flatten ++ (msgCloseL ++ tail))))))))) = none :=
      chomp_msgClose_fieldOpen _
    have e2 : chomp fieldOpenL (fieldOpenL ++ (kv.1.toList ++ ('"' :: ('>' ::
        (kv.2.toList ++ ('<' :: ("/p7:field>".toList ++
          ((rest.map fieldBlockL).flatten ++ (msgCloseL ++ tail))))))))) =
        some (kv.1.toList ++ ('"' :: ('>' :: (kv.2.toList ++ ('<' ::
          ("/p7:field>".toList ++
            ((rest.map fieldBlockL).flatten ++ (msgCloseL ++ tail)))))))) :=
      chomp_append fieldOpenL _
    have e3 : parseQuoted (kv.1.toList ++ ('"' :: ('>' :: (kv.2.toList ++ ('<' ::
        ("/p7:field>".toList ++
          ((rest.map fieldBlockL).flatten ++ (msgCloseL ++ tail)))))))) =
        some (kv.1.toList, '>' :: (kv.2.toList ++ ('<' :: ("/p7:field>".toList ++
          ((rest.map fieldBlockL).flatten ++ (msgCloseL ++ tail)))))) :=
      parseQuoted_closed kv.1.toList _ hk
    have e4 : chomp ['>'] ('>' :: (kv.2.toList ++ ('<' :: ("/p7:field>".toList ++
        ((rest.map fieldBlockL).flatten ++ (msgCloseL ++ tail)))))) =
        some (kv.2.toList ++ ('<' :: ("/p7:field>".toList ++
          ((rest.map fieldBlockL).flatten ++ (msgCloseL ++ tail))))) :=
      chomp_cons_self '>' _
    have e5 : parseCharData (kv.2.toList ++ ('<' :: ("/p7:field>".toList ++
        ((rest.map fieldBlockL).flatten ++ (msgCloseL ++ tail))))) =
        some (kv.2.toList, '<' :: ("/p7:field>".toList ++
          ((rest.map fieldBlockL).flatten ++ (msgCloseL ++ tail)))) :=
      parseCharData_closed kv.2.toList _ hv
    have e6 : chomp fieldCloseL ('<' :: ("/p7:field>".toList ++
        ((rest.map fieldBlockL).flatten ++ (msgCloseL ++ tail)))) =
        some ((rest.map fieldBlockL).flatten ++ (msgCloseL ++ tail)) := by
      rw [fieldCloseL_eq, chomp, if_pos rfl, chomp_append]
    have e7 : parseFields f ((rest.map fieldBlockL).flatten ++ (msgCloseL ++ tail)) =
        some (rest.map (fun kv => ⟨kv.1, kv.2⟩), tail) :=
      ih f tail (by simpa using Nat.lt_of_succ_lt_succ hf)
        fun x hx => hsafe x (List.mem_cons_of_mem kv hx)
    simp only [e1, e2, e3, e4, e5, e6, e7]
    rfl

/-! ## Claim theorems -/

/-- C1: reconnect-policy dynamics. (1) a successful transport-level dial
resets `retryCount` to exactly 0 before any handshake traffic;
(2) each dial failure increments `retryCount` by exactly 1 while setting
`status = Reconnecting`, and the run continues; (3) a failure at
`retryCount ≥ 20` ends in terminal `Disconnected` without consuming any
further dial answer; (4) from a fresh session, `k ≤ 20` failures followed
by a success reach the established state with `retryCount = 0`;
(5) from a fresh session, 21 consecutive failures reach terminal
`Disconnected` with `retryCount = 21`, ignoring every later dial answer
(no further connect attempts). -/
theorem c1_reconnect_policy (conn : Connection) (host : String) (port : Nat)
    (k : Nat) (rest : List DialResult) :
    (connectLoop conn (DialResult.ok :: rest) =
      ConnectOutcome.established { conn with retryCount := 0 }) ∧
    (conn.retryCount + 1 ≤ 20 →
      connectLoop conn (DialResult.fail :: rest) =
        connectLoop { conn with status := Status.Reconnecting,
                                retryCount := conn.retryCount + 1 } rest) ∧
    (conn.retryCount ≥ 20 →
      connectLoop conn (DialResult.fail :: rest) =
        ConnectOutcome.gaveUp { conn with status := Status.Disconnected,
                                          retryCount := conn.retryCount + 1 }) ∧
    (1 ≤ k → k ≤ 20 →
      connectLoop (freshConn host port)
          (List.replicate k DialResult.fail ++ DialResult.ok :: rest) =
        ConnectOutcome.established
          { freshConn host port with status := Status.Reconnecting,
                                     retryCount := 0 }) ∧
    (connectLoop (freshConn host port) (List.replicate 21 DialResult.fail ++ rest) =
      ConnectOutcome.gaveUp
        { freshConn host port with status := Status.Disconnected,
                                   retryCount := 21 }) := by
  refine ⟨rfl, ?_, ?_, ?_, ?_⟩
  · intro h
    rw [connectLoop]
    simp only []
    rw [if_neg (by omega)]
  · intro h
    rw [connectLoop]
    simp only []
    rw [if_pos (by omega)]
  · intro h1 h2
    rw [connectLoop_replicate_fail k (freshConn host port) (DialResult.ok :: rest) h1
      (by simp [freshConn]; omega)]
    rfl
  · have h21 : List.replicate 21 DialResult.fail ++ rest =
        List.replicate 20 DialResult.fail ++ (DialResult.fail :: rest) := by
      rw [List.replicate_succ', List.append_assoc]
      rfl
    rw [h21, connectLoop_replicate_fail 20 (freshConn host port)
      (DialResult.fail :: rest) (by omega)
      (by show (freshConn host port).retryCount + 20 ≤ 20; simp [freshConn])]
    rw [connectLoop]
    simp only []
    rw [if_pos (by simp [freshConn])]
    simp [freshConn]

/-- Witness for C1: concrete runs exercising each hypothesis — a failure at
the ceiling, three failures then a success, and 21 straight failures. -/
theorem c1_witness :
    connectLoop { freshConn "h" 1 with retryCount := 20 } [DialResult.fail] =
      ConnectOutcome.gaveUp
        { freshConn "h" 1 with status := Status.Disconnected, retryCount := 21 } ∧
    connectLoop (freshConn "h" 1) (List.replicate 3 DialResult.fail ++ [DialResult.ok]) =
      ConnectOutcome.established
        { freshConn "h" 1 with status := Status.Reconnecting, retryCount := 0 } ∧
    connectLoop (freshConn "h" 1) (List.replicate 21 DialResult.fail ++ []) =
      ConnectOutcome.gaveUp
        { freshConn "h" 1 with status := Status.Disconnected, retryCount := 21 } :=
  ⟨(c1_reconnect_policy { freshConn "h" 1 with retryCount := 20 } "h" 1 0 []).2.2.1
      (by decide),
   (c1_reconnect_policy (freshConn "h" 1) "h" 1 3 [DialResult.ok]).2.2.2.1
      (by decide) (by decide),
   (c1_reconnect_policy (freshConn "h" 1) "h" 1 0 []).2.2.2.2⟩

/-- C2: order-independence of the handshake compatibility decision. For a
well-formed handshake offer (pairwise-distinct field names) the entire
handler effect — recording the negotiated version and the decision taken
after the full field scan — is invariant under any permutation of the
fields, and the decision sends the compatibility check exactly when the
message carries the `p7.handshake.compatibility_check` field with value
`"1"`, otherwise the client info. -/
theorem c2_handshake_order_independence (specs : String → String) (now : Int)
    (conn : Connection) (l l' : List P7Field)
    (hwf : l.Pairwise fun f g => f.name ≠ g.name) (hperm : l.Perm l') :
    processMessage specs now conn ⟨"p7.handshake.server_handshake", l'⟩ =
      processMessage specs now conn ⟨"p7.handshake.server_handshake", l⟩ ∧
    (processMessage specs now conn ⟨"p7.handshake.server_handshake", l⟩).sent =
      acknowledgeTx ::
        (if l.any ccFlag then
          [compatibilityCheckTx
            (specs (lastValue "p7.handshake.protocol.version" l conn.version))]
         else [clientInfoTx]) := by
  have hs : handshakeScan l' conn.version = handshakeScan l conn.version := by
    rw [handshakeScan_eq, handshakeScan_eq, lastValue_perm _ hwf hperm,
      any_perm _ hperm]
  constructor
  · simp [processMessage, hs]
  · simp [processMessage, handshakeScan_eq]

/-- Witness for C2: a two-field offer with the flag set, and its
reversal, produce identical handler effects. -/
theorem c2_witness :
    processMessage (fun _ => "S") 0 (freshConn "h" 1)
      ⟨"p7.handshake.server_handshake",
       [⟨"p7.handshake.compatibility_check", "1"⟩,
        ⟨"p7.handshake.protocol.version", "2.0b53"⟩]⟩ =
    processMessage (fun _ => "S") 0 (freshConn "h" 1)
      ⟨"p7.handshake.server_handshake",
       [⟨"p7.handshake.protocol.version", "2.0b53"⟩,
        ⟨"p7.handshake.compatibility_check", "1"⟩]⟩ :=
  (c2_handshake_order_independence (fun _ => "S") 0 (freshConn "h" 1)
    [⟨"p7.handshake.protocol.version", "2.0b53"⟩,
     ⟨"p7.handshake.compatibility_check", "1"⟩]
    [⟨"p7.handshake.compatibility_check", "1"⟩,
     ⟨"p7.handshake.protocol.version", "2.0b53"⟩]
    (by simp) (by decide)).1

/-- C10: a handshake offer with no compatibility-check field at all still
gets the acknowledgement and then the client info directly, exactly as if
the flag were false; no compatibility-check transaction is sent. -/
theorem c10_handshake_absent_flag (specs : String → String) (now : Int)
    (conn : Connection) (fields : List P7Field)
    (h : ∀ f ∈ fields, f.name ≠ "p7.handshake.compatibility_check") :
    (processMessage specs now conn ⟨"p7.handshake.server_handshake", fields⟩).sent =
      [acknowledgeTx, clientInfoTx] := by
  have hany : fields.any ccFlag = false := by
    by_contra hx
    rw [Bool.not_eq_false, List.any_eq_true] at hx
    obtain ⟨f, hf, hp⟩ := hx
    rw [ccFlag, Bool.and_eq_true, beq_iff_eq, beq_iff_eq] at hp
    exact h f hf hp.1
  simp [processMessage, handshakeScan_eq, hany]

/-- Witness for C10: an offer carrying only the protocol version gets
acknowledgement followed by client info. -/
theorem c10_witness :
    (processMessage (fun _ => "") 0 (freshConn "h" 1)
        ⟨"p7.handshake.server_handshake",
         [⟨"p7.handshake.protocol.version", "2.0b55"⟩]⟩).sent =
      [acknowledgeTx, clientInfoTx] :=
  c10_handshake_absent_flag (fun _ => "") 0 (freshConn "h" 1)
    [⟨"p7.handshake.protocol.version", "2.0b55"⟩] (by decide)

/-- C3 counterexample: a reachable state violating the claimed invariant.
Dispatching a `wired.login` message with no fields from the fresh session
sets `status = Connected` while `userID` and the negotiated version are
both empty (the login handler stores an id only if the message carries
one, and nothing forces a handshake to come first). -/
theorem c3_counterexample :
    (runTrace (fun _ => "") (freshConn "h" 1)
        [Event.msg ⟨"wired.login", []⟩ 0]).status = Status.Connected ∧
    (runTrace (fun _ => "") (freshConn "h" 1)
        [Event.msg ⟨"wired.login", []⟩ 0]).userID = "" ∧
    (runTrace (fun _ => "") (freshConn "h" 1)
        [Event.msg ⟨"wired.login", []⟩ 0]).version = "" :=
  ⟨rfl, rfl, rfl⟩

/-- C3 (amended): in every state reachable by a well-formed trace — one in
which every dispatched login result follows some handshake offer and
carries a non-empty `wired.user.id`, and every dispatched handshake offer
carries a non-empty `p7.handshake.protocol.version` — `status == Connected`
implies that `userID` and the negotiated version are non-empty. -/
theorem c3_session_invariant (specs : String → String) (host : String)
    (port : Nat) (tr : List Event) (hg : goodTrace false tr = true)
    (hc : (runTrace specs (freshConn host port) tr).status = Status.Connected) :
    (runTrace specs (freshConn host port) tr).userID ≠ "" ∧
    (runTrace specs (freshConn host port) tr).version ≠ "" := by
  have hinv0 : sessionInv false (freshConn host port) := by
    constructor
    · intro h; cases h
    · intro h; cases h
  obtain ⟨seen2, hinv⟩ := runTrace_inv specs tr (freshConn host port) false hg hinv0
  exact hinv.2 hc

/-- Witness for C3 (amended): a handshake offer carrying version `2.0b55`
followed by a login result carrying user id `42` leaves a `Connected`
session with both fields non-empty. -/
theorem c3_witness :
    (runTrace (fun _ => "") (freshConn "h" 1)
        [Event.msg ⟨"p7.handshake.server_handshake",
           [⟨"p7.handshake.protocol.version", "2.0b55"⟩]⟩ 0,
         Event.msg ⟨"wired.login", [⟨"wired.user.id", "42"⟩]⟩ 0]).userID ≠ "" ∧
    (runTrace (fun _ => "") (freshConn "h" 1)
        [Event.msg ⟨"p7.handshake.server_handshake",
           [⟨"p7.handshake.protocol.version", "2.0b55"⟩]⟩ 0,
         Event.msg ⟨"wired.login", [⟨"wired.user.id", "42"⟩]⟩ 0]).version ≠ "" :=
  c3_session_invariant (fun _ => "") "h" 1
    [Event.msg ⟨"p7.handshake.server_handshake",
       [⟨"p7.handshake.protocol.version", "2.0b55"⟩]⟩ 0,
     Event.msg ⟨"wired.login", [⟨"wired.user.id", "42"⟩]⟩ 0]
    (by decide) (by decide)

/-- C4 counterexample: the round-trip does not hold for every field
mapping. Values are inserted verbatim, so the value `"<"` corrupts the
document and decoding fails entirely instead of returning the message. -/
theorem c4_counterexample :
    decodeTransaction (encodeTransaction "m" [("k", "<")]) = none := by
  decide

/-- C4 (amended): the encode/decode round-trip holds for every transaction
name and every field mapping (including the empty mapping) whose name,
field names and field values avoid the characters that the verbatim
insertion cannot protect — `<`, `&`, `"` and the carriage-return frame
delimiter: decoding the encoded bytes yields exactly the input name and
the input field list. -/
theorem c4_roundtrip (n : String) (ps : List (String × String))
    (hn : safeStr n = true)
    (hps : ∀ kv ∈ ps, safeStr kv.1 = true ∧ safeStr kv.2 = true) :
    decodeTransaction (encodeTransaction n ps) =
      some ⟨n, ps.map fun kv => ⟨kv.1, kv.2⟩⟩ := by
  rw [safeStr, List.all_eq_true] at hn
  have hdata : (encodeTransaction n ps).toList =
      msgOpenL ++ (n.toList ++ ('"' :: (msgXmlnsL ++
        ((ps.map fieldBlockL).flatten ++ (msgCloseL ++ ['\r', '\n']))))) := by
    show (encodeTransaction n ps).data = _
    rw [encodeTransaction]
    simp only [String.data_append]
    rw [show (fieldsXML ps).data = (ps.map fieldBlockL).flatten from
      fieldsXML_toList ps]
    simp [msgOpenL, msgXmlnsL, msgCloseL, String.toList, List.append_assoc]
  have hlen : ps.length <
      ((ps.map fieldBlockL).flatten ++ (msgCloseL ++ ['\r', '\n'])).length + 1 := by
    have h1 := fieldBlocks_length_ge ps
    rw [List.length_append]
    omega
  have e1 : chomp msgOpenL (msgOpenL ++ (n.toList ++ ('"' :: (msgXmlnsL ++
      ((ps.map fieldBlockL).flatten ++ (msgCloseL ++ ['\r', '\n'])))))) =
      some (n.toList ++ ('"' :: (msgXmlnsL ++
        ((ps.map fieldBlockL).flatten ++ (msgCloseL ++ ['\r', '\n']))))) :=
    chomp_append _ _
  have e2 : parseQuoted (n.toList ++ ('"' :: (msgXmlnsL ++
      ((ps.map fieldBlockL).flatten ++ (msgCloseL ++ ['\r', '\n']))))) =
      some (n.toList, msgXmlnsL ++
        ((ps.map fieldBlockL).flatten ++ (msgCloseL ++ ['\r', '\n']))) :=
    parseQuoted_closed n.toList _ hn
  have e3 : chomp msgXmlnsL (msgXmlnsL ++
      ((ps.map fieldBlockL).flatten ++ (msgCloseL ++ ['\r', '\n']))) =
      some ((ps.map fieldBlockL).flatten ++ (msgCloseL ++ ['\r', '\n'])) :=
    chomp_append _ _
  have e4 : parseFields
      (((ps.map fieldBlockL).flatten ++ (msgCloseL ++ ['\r', '\n'])).length + 1)
      ((ps.map fieldBlockL).flatten ++ (msgCloseL ++ ['\r', '\n'])) =
      some (ps.map (fun kv => ⟨kv.1, kv.2⟩), ['\r', '\n']) :=
    parseFields_closed ps _ _ hlen hps
  rw [decodeTransaction, hdata]
  simp only [e1, e2, e3, e4]
  rfl

/-- Witness for C4 (amended): a concrete safe name and mapping
round-trips to exactly the input. -/
theorem c4_witness :
    decodeTransaction (encodeTransaction "wired.ping" [("a", "b")]) =
      some ⟨"wired.ping", [⟨"a", "b"⟩]⟩ :=
  c4_roundtrip "wired.ping" [("a", "b")] (by decide) (by decide)

/-- C5: keepalive watchdog threshold. On a tick with `status == Connected`,
if at least 60 seconds passed since `lastPing` exactly one
ping-acknowledgement is emitted, and if fewer than 60 seconds passed none
is emitted. -/
theorem c5_watchdog_threshold (conn : Connection) (now : Int) :
    (conn.status = Status.Connected → now - conn.lastPing ≥ 60 * 1000000000 →
      watchdogTick conn now = [pingTx]) ∧
    (conn.status = Status.Connected → now - conn.lastPing < 60 * 1000000000 →
      watchdogTick conn now = []) := by
  constructor
  · intro h1 h2
    rw [watchdogTick, if_pos h1, if_pos h2]
  · intro h1 h2
    rw [watchdogTick, if_pos h1, if_neg (by omega)]

/-- Witness for C5: a connected session with `lastPing` 61 seconds in the
past emits exactly one ping; 30 seconds in the past emits none. -/
theorem c5_witness :
    watchdogTick { freshConn "h" 1 with status := Status.Connected, lastPing := 0 }
      61000000000 = [pingTx] ∧
    watchdogTick { freshConn "h" 1 with status := Status.Connected, lastPing := 0 }
      30000000000 = [] :=
  ⟨(c5_watchdog_threshold _ 61000000000).1 rfl (by decide),
   (c5_watchdog_threshold _ 30000000000).2 rfl (by decide)⟩

/-- C6: server-info idempotence. Dispatching `wired.server_info` while
`Connected` sends nothing (in particular no login) and changes nothing;
while not `Connected` it sends exactly the fixed guest login. -/
theorem c6_server_info_idempotent (specs : String → String) (now : Int)
    (conn : Connection) (fields : List P7Field) :
    (conn.status = Status.Connected →
      processMessage specs now conn ⟨"wired.server_info", fields⟩ =
        ⟨conn, [], false, []⟩) ∧
    (conn.status ≠ Status.Connected →
      processMessage specs now conn ⟨"wired.server_info", fields⟩ =
        ⟨conn, [loginTx "guest" "da39a3ee5e6b4b0d3255bfef95601890afd80709"],
         false, []⟩) := by
  constructor <;> intro h <;> simp [processMessage, h]

/-- Witness for C6: a connected session ignores `wired.server_info`; a
disconnected one answers it with the guest login. -/
theorem c6_witness :
    processMessage (fun _ => "") 0
        { freshConn "h" 1 with status := Status.Connected }
        ⟨"wired.server_info", []⟩ =
      ⟨{ freshConn "h" 1 with status := Status.Connected }, [], false, []⟩ ∧
    processMessage (fun _ => "") 0 (freshConn "h" 1) ⟨"wired.server_info", []⟩ =
      ⟨freshConn "h" 1,
       [loginTx "guest" "da39a3ee5e6b4b0d3255bfef95601890afd80709"], false, []⟩ :=
  ⟨(c6_server_info_idempotent (fun _ => "") 0 _ []).1 rfl,
   (c6_server_info_idempotent (fun _ => "") 0 _ []).2 (by decide)⟩

/-- C7 counterexample: with no `userID` known (the fresh session),
`Disconnect` still sends the disconnect notification (the claim says it is
sent only when a `userID` is known), and with `userID = "42"` the field is
left unchanged after `Disconnect` (the claim says it is cleared). -/
theorem c7_counterexample :
    (disconnect (freshConn "h" 1)).sent = [disconnectTx ""] ∧
    (freshConn "h" 1).userID = "" ∧
    (disconnect { freshConn "h" 1 with userID := "42" }).conn.userID = "42" :=
  ⟨rfl, rfl, rfl⟩

/-- C7 (amended): `Disconnect` always sends the disconnect notification
carrying the stored `userID` (even when none is known), closes the
transport, sets `status = Disconnected`, leaves `userID` unchanged, and
never invokes the Reconnect Policy. -/
theorem c7_disconnect_contract (conn : Connection) :
    disconnect conn =
      ⟨{ conn with status := Status.Disconnected },
       [disconnectTx conn.userID], true, false⟩ ∧
    (disconnect conn).conn.userID = conn.userID ∧
    (disconnect conn).invokedReconnect = false :=
  ⟨rfl, rfl, rfl⟩

/-- C8: ping-request frame effect. Dispatching `wired.send_ping` sets
`lastPing` to now, emits exactly one ping-acknowledgement, and leaves
every other session field (status, retryCount, userID, version, host,
port) unchanged. -/
theorem c8_ping_frame_effect (specs : String → String) (now : Int)
    (conn : Connection) (fields : List P7Field) :
    processMessage specs now conn ⟨"wired.send_ping", fields⟩ =
      ⟨{ conn with lastPing := now }, [pingTx], false, []⟩ ∧
    (processMessage specs now conn ⟨"wired.send_ping", fields⟩).conn.status = conn.status ∧
    (processMessage specs now conn ⟨"wired.send_ping", fields⟩).conn.retryCount = conn.retryCount ∧
    (processMessage specs now conn ⟨"wired.send_ping", fields⟩).conn.userID = conn.userID ∧
    (processMessage specs now conn ⟨"wired.send_ping", fields⟩).conn.version = conn.version ∧
    (processMessage specs now conn ⟨"wired.send_ping", fields⟩).conn.Host = conn.Host ∧
    (processMessage specs now conn ⟨"wired.send_ping", fields⟩).conn.Port = conn.Port :=
  ⟨rfl, rfl, rfl, rfl, rfl, rfl, rfl⟩

/-- C9: decode-error recovery. A frame that fails to decode is dropped:
no transaction is sent, the session record is unchanged, no panic is
raised and no push is emitted (and `processData` has no reconnect effect
at all — only the read loop's transport errors trigger `Reconnect`). -/
theorem c9_decode_error_drop (specs : String → String) (now : Int)
    (conn : Connection) (data : String) (h : decodeTransaction data = none) :
    processData specs now conn data = ⟨conn, [], false, []⟩ := by
  rw [processData, h]

/-- Witness for C9: a concrete malformed frame is dropped without effect. -/
theorem c9_witness :
    decodeTransaction "garbage" = none ∧
    processData (fun _ => "") 0 (freshConn "h" 1) "garbage" =
      ⟨freshConn "h" 1, [], false, []⟩ :=
  ⟨by decide, c9_decode_error_drop (fun _ => "") 0 (freshConn "h" 1) "garbage" (by decide)⟩

end Wired
